import Mathlib

/-!
Verification development for the canvassing workflow of the procurement
front-end (CanvassingModule.tsx, PurchaseRequestModal.tsx).

The TypeScript source is shallowly embedded: JS numbers appear as rationals,
price strings stay strings and are interpreted through a model of the
JavaScript parseFloat builtin, records from item id to price string become
association lists, and the React component state of the module becomes an
explicit state record with a guarded advance function mirroring the buttons
whose disabled conditions gate each stage.
-/

namespace Canvassing

/- The core rational operations are sealed for elaboration; reopening them
lets concrete witnesses evaluate by decide (the kernel unfolds them anyway). -/
attribute [local semireducible] Rat.mul Rat.inv Rat.add Rat.sub

/-! ## Model of the JavaScript parseFloat builtin

parseFloat skips leading whitespace, accepts an optional sign, a digit
sequence with at most one decimal point, and an optional exponent part
(ignored when the exponent has no digits), and returns NaN (here: none)
when no digit was consumed.  The non-finite literals (Infinity) are outside
the model; no price string in this workflow uses them. -/

def digitsToNat (ds : List Char) : Nat :=
  ds.foldl (fun a c => a * 10 + (c.toNat - 48)) 0

def isSpaceChar (c : Char) : Bool :=
  c = ' ' || c = '\t' || c = '\n' || c = '\r'

def parseExponent (cs : List Char) : Int :=
  match cs with
  | 'e' :: rest | 'E' :: rest =>
    match rest with
    | '-' :: r => if (r.takeWhile Char.isDigit) = [] then 0
                  else -(digitsToNat (r.takeWhile Char.isDigit) : Int)
    | '+' :: r => if (r.takeWhile Char.isDigit) = [] then 0
                  else (digitsToNat (r.takeWhile Char.isDigit) : Int)
    | r => if (r.takeWhile Char.isDigit) = [] then 0
           else (digitsToNat (r.takeWhile Char.isDigit) : Int)
  | _ => 0

def parseFloatJS (s : String) : Option ℚ :=
  let cs := s.toList.dropWhile isSpaceChar
  let sign : ℚ := match cs with
    | '-' :: _ => -1
    | _ => 1
  let cs₁ := match cs with
    | '-' :: rest => rest
    | '+' :: rest => rest
    | _ => cs
  let intDs := cs₁.takeWhile Char.isDigit
  let cs₂ := cs₁.dropWhile Char.isDigit
  let fracDs := match cs₂ with
    | '.' :: rest => rest.takeWhile Char.isDigit
    | _ => []
  let cs₃ := match cs₂ with
    | '.' :: rest => rest.dropWhile Char.isDigit
    | _ => cs₂
  if intDs = [] ∧ fracDs = [] then none
  else
    let mant : ℚ := (digitsToNat intDs : ℚ) + (digitsToNat fracDs : ℚ) / (10 ^ fracDs.length)
    some (sign * mant * (10 : ℚ) ^ (parseExponent cs₃))

/-- Model of JavaScript String.prototype.trim on the character list: strip
leading and trailing whitespace (the ASCII whitespace characters; exotic
Unicode whitespace is outside the model, no input here uses it). -/
def jsTrim (s : String) : String :=
  String.mk (((s.toList.dropWhile isSpaceChar).reverse.dropWhile isSpaceChar).reverse)

/-- Model of the idiom `parseFloat(s || "0") || 0`: an empty (falsy) string
is replaced by "0" before parsing, and a NaN result collapses to 0 (a 0 or
-0 result is already 0 in ℚ). -/
def jsPriceNum (s : String) : ℚ :=
  match parseFloatJS (if s = "" then "0" else s) with
  | none => 0
  | some q => q

/-! ## Data model (CanvassingModule.tsx types) -/

structure CanvassingPRItem where
  id : Nat
  desc : String
  stock : String
  unit : String
  qty : ℚ
  unitCost : ℚ
deriving DecidableEq, Repr

structure CanvassingPR where
  prNo : String
  date : String
  officeSection : String
  responsibilityCode : String
  purpose : String
  isHighValue : Bool
  items : List CanvassingPRItem
deriving DecidableEq, Repr

inductive CanvassStage where
  | pr_received
  | bac_resolution
  | release_canvass
  | collect_canvass
  | aaa_preparation
deriving DecidableEq, Repr

def STAGE_ORDER : List CanvassStage :=
  [.pr_received, .bac_resolution, .release_canvass, .collect_canvass, .aaa_preparation]

/-- Index of a stage inside STAGE_ORDER (STAGE_ORDER.indexOf in the source). -/
def stageIdx : CanvassStage → Nat
  | .pr_received => 0
  | .bac_resolution => 1
  | .release_canvass => 2
  | .collect_canvass => 3
  | .aaa_preparation => 4

structure BACMember where
  name : String
  designation : String
  signed : Bool
  signedAt : String
deriving DecidableEq, Repr

inductive DivStatus where
  | pending
  | released
  | returned
deriving DecidableEq, Repr

structure DivisionAssignment where
  «section» : String
  canvasserName : String
  releaseDate : String
  returnDate : String
  status : DivStatus
deriving DecidableEq, Repr

/-- A supplier quote; unitPrices is the Record<number, string> from itemId to
price string, embedded as an association list (JS object keys are unique). -/
structure SupplierQuote where
  id : Nat
  supplierName : String
  address : String
  contactNo : String
  tinNo : String
  deliveryDays : String
  unitPrices : List (Nat × String)
  remarks : String
deriving DecidableEq, Repr

def lookupPrice : List (Nat × String) → Nat → Option String
  | [], _ => none
  | (k, v) :: rest, key => if k = key then some v else lookupPrice rest key

/-- The price a supplier quotes for an item, as the source reads it:
`parseFloat(sp.unitPrices[item.id] || "0") || 0` (a missing key behaves like
the empty string: both fall back to "0"). -/
def priceFor (sp : SupplierQuote) (itemId : Nat) : ℚ :=
  jsPriceNum ((lookupPrice sp.unitPrices itemId).getD (""))

/-! ## Award calculator (Step10AAA) -/

/-- One step of the source's scan for the lowest bid: the accumulator keeps
the best (supplier, value) pair so far and is replaced only when the
candidate's value is positive and strictly smaller
(`p > 0 && (!best || p < best.price)`). -/
def pickStep {α : Type} (best : Option (α × ℚ)) (cur : α × ℚ) : Option (α × ℚ) :=
  match best with
  | none => if 0 < cur.2 then some cur else none
  | some b => if 0 < cur.2 ∧ cur.2 < b.2 then some cur else some b

/-- lowestForItem: scan all supplier quotes for an item, keeping the first
strictly-smallest positive price. -/
def lowestForItem (suppliers : List SupplierQuote) (itemId : Nat) :
    Option (SupplierQuote × ℚ) :=
  suppliers.foldl (fun best sp => pickStep best (sp, priceFor sp itemId)) none

/-- Grand total for one supplier:
`pr.items.reduce((s, item) => s + p * item.qty, 0)`. -/
def supplierTotal (items : List CanvassingPRItem) (sp : SupplierQuote) : ℚ :=
  items.foldl (fun s item => s + priceFor sp item.id * item.qty) 0

/-- supplierTotals: each supplier paired with its grand total. -/
def supplierTotals (items : List CanvassingPRItem) (suppliers : List SupplierQuote) :
    List (SupplierQuote × ℚ) :=
  suppliers.map (fun sp => (sp, supplierTotal items sp))

/-- lowestSupplier: the reduce
`(best, cur) => cur.total > 0 && (!best || cur.total < best.total) ? cur : best`
over supplierTotals, starting from null. -/
def lowestSupplier (items : List CanvassingPRItem) (suppliers : List SupplierQuote) :
    Option (SupplierQuote × ℚ) :=
  (supplierTotals items suppliers).foldl pickStep none

/-! ## A recursive companion of the lowest-bid scan, used only in proofs -/

/-- Left-biased minimum on optional scored values: keeps the incumbent on
ties, so the earlier candidate wins. -/
def mergeBest {α : Type} : Option (α × ℚ) → Option (α × ℚ) → Option (α × ℚ)
  | none, c => c
  | some b, none => some b
  | some b, some c => if c.2 < b.2 then some c else some b

/-- Recursive form of the scan `foldl pickStep none` over elements scored by
a key function, with only positive keys eligible. -/
def pickRecK {α : Type} (key : α → ℚ) : List α → Option (α × ℚ)
  | [] => none
  | a :: rest =>
    mergeBest (if 0 < key a then some (a, key a) else none) (pickRecK key rest)

/-! ## Signature roster (Step7BACResolution.signMember, Step10AAA.signMember) -/

/-- signMember: `m.map((mb, i) => i === idx ? { ...mb, signed: true, signedAt: now } : mb)`. -/
def signMember (roster : List BACMember) (idx : Nat) (now : String) : List BACMember :=
  roster.mapIdx (fun i mb =>
    if i = idx then { mb with signed := true, signedAt := now } else mb)

/-- allSigned: `members.every((m) => m.signed)`. -/
def allSigned (roster : List BACMember) : Bool :=
  roster.all (fun m => m.signed)

/-- Sign every entry of the roster in index order. -/
def signAll (roster : List BACMember) (now : String) : List BACMember :=
  (List.range roster.length).foldl (fun r i => signMember r i now) roster

/-- Step10AAA's useState initializer for the abstract roster:
`bacMembers.map((m) => ({ ...m, signed: false, signedAt: "" }))`. -/
def initAAAMembers (bacMembers : List BACMember) : List BACMember :=
  bacMembers.map (fun m => { m with signed := false, signedAt := "" })

/-! ## Stage gates and module state machine -/

/-- Step8's allReleased: `divisions.every((d) => d.status !== "pending")`. -/
def allReleased (divs : List DivisionAssignment) : Bool :=
  divs.all (fun d => d.status != DivStatus.pending)

/-- Step9's hasQuotes:
`suppliers.some((sp) => sp.supplierName && Object.keys(sp.unitPrices).length > 0)`
(a nonempty supplier name is the truthy condition; the unitPrices record must
hold at least one key). -/
def hasQuotes (suppliers : List SupplierQuote) : Bool :=
  suppliers.any (fun sp => sp.supplierName != "" && !sp.unitPrices.isEmpty)

/-- The React state of CanvassingModule together with the step-local fields
that feed the gate of each stage (bacNo from Step6, aaaMembers from Step10). -/
structure ModuleState where
  pr : CanvassingPR
  stage : CanvassStage
  completed : Finset CanvassStage
  bacNo : String
  receivedBy : String
  bacMembers : List BACMember
  divisions : List DivisionAssignment
  suppliers : List SupplierQuote
  aaaMembers : List BACMember
deriving DecidableEq

/-- completeStage:
`setCompleted(new Set([...s, current])); const idx = STAGE_ORDER.indexOf(current);
if (idx < STAGE_ORDER.length - 1) setStage(STAGE_ORDER[idx + 1]);`
(the getD default is never used: when the branch is taken, idx + 1 is in range). -/
def completeStage (s : ModuleState) (current : CanvassStage) : ModuleState :=
  let s₁ := { s with completed := insert current s.completed }
  let idx := stageIdx current
  if idx < STAGE_ORDER.length - 1 then
    { s₁ with stage := STAGE_ORDER.getD (idx + 1) current }
  else s₁

/-- The condition under which the advance affordance of the current stage is
enabled.  Each arm is the negation of the corresponding button's disabled
expression: Step6 `!bacNo.trim()`, Step7 `!allSigned`, Step8 `!allReleased`,
Step9 `!hasQuotes`; Step10's forward button is rendered only when
`allSigned && lowestSupplier` holds. -/
def canAdvance (s : ModuleState) : Bool :=
  match s.stage with
  | .pr_received => jsTrim s.bacNo != ""
  | .bac_resolution => allSigned s.bacMembers
  | .release_canvass => allReleased s.divisions
  | .collect_canvass => hasQuotes s.suppliers
  | .aaa_preparation =>
      allSigned s.aaaMembers && (lowestSupplier s.pr.items s.suppliers).isSome

/-- One advance interaction: the gated button invokes completeStage on the
current stage; a disabled button does nothing.  Entering aaa_preparation
mounts Step10AAA, whose useState initializer rebuilds the abstract roster
from the BAC roster with cleared signatures. -/
def advance (s : ModuleState) : ModuleState :=
  if canAdvance s then
    let s' := completeStage s s.stage
    if s.stage = CanvassStage.collect_canvass then
      { s' with aaaMembers := initAAAMembers s.bacMembers }
    else s'
  else s

/-! ## Completion payload (sessionRef, handleFinalComplete) -/

/-- The fields of `useRef<Partial<CanvassSessionPayload>>` that
handleFinalComplete reads back. -/
structure SessionRef where
  pr_no : Option String
  bac_no : Option String
  resolution_no : Option String
  mode_of_procurement : Option String
  aaa_no : Option String
deriving DecidableEq, Repr

/-- The ref's creation value `{ pr_no: pr.prNo }`; no statement in the module
ever assigns any other field of the ref. -/
def initSessionRef (pr : CanvassingPR) : SessionRef :=
  { pr_no := some pr.prNo, bac_no := none, resolution_no := none,
    mode_of_procurement := none, aaa_no := none }

structure CanvassSessionPayload where
  pr_no : String
  bac_no : String
  resolution_no : String
  mode_of_procurement : String
  aaa_no : String
  awarded_supplier : String
  awarded_total : ℚ
  suppliers : List SupplierQuote
  bac_members : List BACMember
deriving DecidableEq, Repr

/-- handleFinalComplete's payload construction (`??` becomes Option.getD). -/
def handleFinalComplete (pr : CanvassingPR) (sessionRef : SessionRef)
    (suppliers : List SupplierQuote) (bacMembers : List BACMember)
    (awarded : String × ℚ) : CanvassSessionPayload :=
  { pr_no := pr.prNo,
    bac_no := sessionRef.bac_no.getD (""),
    resolution_no := sessionRef.resolution_no.getD (""),
    mode_of_procurement := sessionRef.mode_of_procurement.getD (""),
    aaa_no := sessionRef.aaa_no.getD (""),
    awarded_supplier := awarded.1,
    awarded_total := awarded.2,
    suppliers := suppliers,
    bac_members := bacMembers }

/-! ## Purchase-request modal (PurchaseRequestModal.tsx) -/

structure LineItem where
  id : Nat
  desc : String
  stock : String
  unit : String
  qty : String
  price : String
deriving DecidableEq, Repr

def HIGH_VALUE_THRESHOLD : ℚ := 10000

/-- One item's contribution to the modal's total:
`parseFloat(item.qty || "0") * parseFloat(item.price || "0") || 0`
(a NaN product, arising from a NaN factor, collapses to 0). -/
def lineItemContribution (item : LineItem) : ℚ :=
  match parseFloatJS (if item.qty = "" then "0" else item.qty),
        parseFloatJS (if item.price = "" then "0" else item.price) with
  | some a, some b => a * b
  | _, _ => 0

/-- The modal's memoized total: `form.items.reduce((s, item) => s + ..., 0)`. -/
def formTotal (items : List LineItem) : ℚ :=
  items.foldl (fun s item => s + lineItemContribution item) 0

/-- `isHighValue = total >= HIGH_VALUE_THRESHOLD`. -/
def isHighValue (items : List LineItem) : Bool :=
  decide (HIGH_VALUE_THRESHOLD ≤ formTotal items)

/-! ## Concrete values used by witnesses and counterexamples -/

def itemEx : CanvassingPRItem :=
  { id := 1, desc := "Item 1", stock := "SP-001", unit := "pc", qty := 2, unitCost := 0 }

def quoteA : SupplierQuote :=
  { id := 1, supplierName := "A", address := "", contactNo := "", tinNo := "",
    deliveryDays := "", unitPrices := [(1, "10")], remarks := "" }

def quoteB : SupplierQuote :=
  { id := 2, supplierName := "B", address := "", contactNo := "", tinNo := "",
    deliveryDays := "", unitPrices := [(1, "5")], remarks := "" }

def quoteAbc : SupplierQuote :=
  { id := 3, supplierName := "C", address := "", contactNo := "", tinNo := "",
    deliveryDays := "", unitPrices := [(1, "abc")], remarks := "" }

def prEx : CanvassingPR :=
  { prNo := "2026-PR-0042", date := "February 26, 2026", officeSection := "STOD",
    responsibilityCode := "10-001", purpose := "Office supplies", isHighValue := false,
    items := [itemEx] }

def bacSignedEx : List BACMember :=
  [{ name := "Yvonne M.", designation := "BAC Chairperson", signed := true, signedAt := "09:00" },
   { name := "PARPO II", designation := "PARPO / Approver", signed := true, signedAt := "09:05" }]

def rosterEx : List BACMember :=
  [{ name := "Yvonne M.", designation := "BAC Chairperson", signed := false, signedAt := "" },
   { name := "PARPO II", designation := "PARPO / Approver", signed := false, signedAt := "" }]

def divPendingEx : DivisionAssignment :=
  { «section» := "STOD", canvasserName := "Yvonne M.", releaseDate := "",
    returnDate := "", status := DivStatus.pending }

def stateA : ModuleState :=
  { pr := prEx, stage := CanvassStage.pr_received, completed := ∅,
    bacNo := "2026-BAC-0042", receivedBy := "Yvonne M.", bacMembers := bacSignedEx,
    divisions := [divPendingEx], suppliers := [quoteA, quoteB], aaaMembers := [] }

def stateB : ModuleState := { stateA with bacNo := " " }

def stateC2 : ModuleState := { stateA with stage := CanvassStage.collect_canvass }

def lineEx6700 : LineItem :=
  { id := 1, desc := "Printer", stock := "", unit := "unit", qty := "1", price := "6700" }

def lineEx15000 : LineItem :=
  { id := 1, desc := "Laptop", stock := "", unit := "unit", qty := "1", price := "15000" }

def lineEx6700List : List LineItem := [lineEx6700]

def lineEx15000List : List LineItem := [lineEx15000]

/-! # Lemmas -/

theorem pickStep_eq {α : Type} (best : Option (α × ℚ)) (cur : α × ℚ) :
    pickStep best cur = mergeBest best (if 0 < cur.2 then some cur else none) := by
  cases best with
  | none => by_cases h : 0 < cur.2 <;> simp [pickStep, mergeBest, h]
  | some b =>
    by_cases h : 0 < cur.2
    · by_cases h2 : cur.2 < b.2 <;> simp [pickStep, mergeBest, h, h2]
    · simp [pickStep, mergeBest, h]

theorem mergeBest_assoc {α : Type} (x y z : Option (α × ℚ)) :
    mergeBest (mergeBest x y) z = mergeBest x (mergeBest y z) := by
  cases x with
  | none => rfl
  | some b =>
    cases y with
    | none => rfl
    | some c =>
      cases z with
      | none => by_cases h : c.2 < b.2 <;> simp [mergeBest, h]
      | some d =>
        by_cases h1 : c.2 < b.2 <;> by_cases h2 : d.2 < c.2 <;>
          by_cases h3 : d.2 < b.2 <;>
          simp [mergeBest, h1, h2, h3] <;> first | rfl | linarith

theorem foldl_pick {α : Type} (key : α → ℚ) :
    ∀ (l : List α) (best : Option (α × ℚ)),
      l.foldl (fun b a => pickStep b (a, key a)) best = mergeBest best (pickRecK key l)
  | [], best => by cases best <;> simp [pickRecK, mergeBest]
  | a :: rest, best => by
    rw [List.foldl_cons, foldl_pick key rest, pickStep_eq, pickRecK, mergeBest_assoc]

theorem mergeBest_eq_none {α : Type} (x y : Option (α × ℚ)) :
    mergeBest x y = none ↔ x = none ∧ y = none := by
  cases x <;> cases y <;> simp [mergeBest]
  split_ifs <;> simp

theorem pickRecK_eq_none_iff {α : Type} (key : α → ℚ) :
    ∀ (l : List α), pickRecK key l = none ↔ ∀ a ∈ l, key a ≤ 0
  | [] => by simp [pickRecK]
  | a :: rest => by
    rw [pickRecK, mergeBest_eq_none, pickRecK_eq_none_iff key rest]
    by_cases h : 0 < key a
    · simp only [if_pos h, List.forall_mem_cons]
      constructor
      · rintro ⟨hfalse, -⟩; exact absurd hfalse (by simp)
      · rintro ⟨h1, -⟩; linarith
    · simp [h, List.forall_mem_cons, not_lt.mp h]

theorem pickRecK_some_spec {α : Type} (key : α → ℚ) :
    ∀ (l : List α) (b : α × ℚ), pickRecK key l = some b →
      b.2 = key b.1 ∧ 0 < b.2 ∧
      (∀ a ∈ l, 0 < key a → b.2 ≤ key a) ∧
      ∃ pre post, l = pre ++ b.1 :: post ∧ ∀ a ∈ pre, key a ≤ 0 ∨ b.2 < key a
  | [], b => by simp [pickRecK]
  | a :: rest, b => by
    intro h
    rw [pickRecK] at h
    rcases hrec : pickRecK key rest with _ | c
    · rw [hrec] at h
      by_cases hpos : 0 < key a
      · rw [if_pos hpos] at h
        simp only [mergeBest, Option.some.injEq] at h
        subst h
        refine ⟨rfl, hpos, ?_, [], rest, rfl, by simp⟩
        intro x hx hxpos
        rcases List.mem_cons.mp hx with rfl | hx
        · exact le_refl _
        · exact absurd hxpos (not_lt.mpr ((pickRecK_eq_none_iff key rest).mp hrec x hx))
      · rw [if_neg hpos] at h
        simp [mergeBest] at h
    · rw [hrec] at h
      obtain ⟨hkey, hcpos, hmin, pre, post, hsplit, hpre⟩ :=
        pickRecK_some_spec key rest c hrec
      by_cases hpos : 0 < key a
      · rw [if_pos hpos] at h
        simp only [mergeBest] at h
        by_cases hlt : c.2 < key a
        · rw [if_pos hlt] at h
          rw [Option.some.injEq] at h
          subst h
          refine ⟨hkey, hcpos, ?_, a :: pre, post, by simp [hsplit], ?_⟩
          · intro x hx hxpos
            rcases List.mem_cons.mp hx with rfl | hx
            · exact le_of_lt hlt
            · exact hmin x hx hxpos
          · intro x hx
            rcases List.mem_cons.mp hx with rfl | hx
            · exact Or.inr hlt
            · exact hpre x hx
        · rw [if_neg hlt] at h
          rw [Option.some.injEq] at h
          subst h
          refine ⟨rfl, hpos, ?_, [], rest, rfl, by simp⟩
          intro x hx hxpos
          rcases List.mem_cons.mp hx with rfl | hx
          · exact le_refl _
          · exact le_trans (not_lt.mp hlt) (hmin x hx hxpos)
      · rw [if_neg hpos] at h
        simp only [mergeBest, Option.some.injEq] at h
        subst h
        refine ⟨hkey, hcpos, ?_, a :: pre, post, by simp [hsplit], ?_⟩
        · intro x hx hxpos
          rcases List.mem_cons.mp hx with rfl | hx
          · exact absurd hxpos hpos
          · exact hmin x hx hxpos
        · intro x hx
          rcases List.mem_cons.mp hx with rfl | hx
          · exact Or.inl (not_lt.mp hpos)
          · exact hpre x hx

theorem lowestForItem_eq (suppliers : List SupplierQuote) (itemId : Nat) :
    lowestForItem suppliers itemId =
      pickRecK (fun sp => priceFor sp itemId) suppliers :=
  (foldl_pick (fun sp => priceFor sp itemId) suppliers none).trans rfl

theorem lowestSupplier_eq (items : List CanvassingPRItem) (suppliers : List SupplierQuote) :
    lowestSupplier items suppliers =
      pickRecK (fun sp => supplierTotal items sp) suppliers := by
  rw [lowestSupplier, supplierTotals, List.foldl_map]
  exact (foldl_pick (fun sp => supplierTotal items sp) suppliers none).trans rfl

theorem foldl_add_eq {α : Type} (f : α → ℚ) :
    ∀ (l : List α) (c : ℚ), l.foldl (fun s x => s + f x) c = c + (l.map f).sum
  | [], c => by simp
  | x :: l, c => by
    rw [List.foldl_cons, foldl_add_eq f l]
    simp [add_assoc]

theorem getElem?_mapIdx {α β : Type} :
    ∀ (l : List α) (f : ℕ → α → β) (j : ℕ), (l.mapIdx f)[j]? = (l[j]?).map (f j)
  | [], _, j => by simp
  | a :: l, f, j => by
    rw [List.mapIdx_cons]
    cases j with
    | zero => simp
    | succ j => simp [getElem?_mapIdx l (fun i => f (i + 1)) j]

theorem signMember_getElem? (roster : List BACMember) (idx : Nat) (now : String) (j : Nat) :
    (signMember roster idx now)[j]? =
      (roster[j]?).map (fun mb =>
        if j = idx then { mb with signed := true, signedAt := now } else mb) :=
  getElem?_mapIdx roster _ j

theorem signMember_length (roster : List BACMember) (idx : Nat) (now : String) :
    (signMember roster idx now).length = roster.length :=
  List.length_mapIdx

theorem signMember_overwrite (roster : List BACMember) (idx : Nat) (t now : String) :
    signMember (signMember roster idx t) idx now = signMember roster idx now := by
  apply List.ext_getElem?
  intro n
  rw [signMember_getElem?, signMember_getElem?, signMember_getElem?, Option.map_map]
  cases o : roster[n]? with
  | none => simp
  | some mb => by_cases h : n = idx <;> simp [h, Function.comp]

theorem signMember_signed_mono (roster : List BACMember) (idx : Nat) (now : String) (j : Nat)
    (h : (roster[j]?).map (fun m => m.signed) = some true) :
    ((signMember roster idx now)[j]?).map (fun m => m.signed) = some true := by
  rw [signMember_getElem?, Option.map_map]
  cases o : roster[j]? with
  | none => rw [o] at h; simp at h
  | some mb =>
    rw [o] at h
    simp at h
    by_cases hj : j = idx
    · simp [hj, Function.comp]
    · simp [hj, Function.comp, h]

theorem foldl_sign_mono (now : String) :
    ∀ (l : List Nat) (r : List BACMember) (j : Nat),
      (r[j]?).map (fun m => m.signed) = some true →
      ((l.foldl (fun r i => signMember r i now) r)[j]?).map (fun m => m.signed) = some true
  | [], _, _ => id
  | i :: l, r, j => fun h =>
      foldl_sign_mono now l (signMember r i now) j (signMember_signed_mono r i now j h)

theorem foldl_sign_length (now : String) :
    ∀ (l : List Nat) (r : List BACMember),
      (l.foldl (fun r i => signMember r i now) r).length = r.length
  | [], _ => rfl
  | i :: l, r => (foldl_sign_length now l (signMember r i now)).trans
      (signMember_length r i now)

theorem foldl_sign_signs (now : String) :
    ∀ (l : List Nat) (r : List BACMember) (j : Nat), j ∈ l → j < r.length →
      ((l.foldl (fun r i => signMember r i now) r)[j]?).map (fun m => m.signed) = some true
  | [], _, j, hj, _ => absurd hj (List.not_mem_nil j)
  | i :: l, r, j, hj, hlen => by
    rw [List.foldl_cons]
    rcases List.mem_cons.mp hj with rfl | hj₂
    · apply foldl_sign_mono
      rw [signMember_getElem?, Option.map_map]
      cases o : r[j]? with
      | none => exact absurd (List.getElem?_eq_none_iff.mp o) (not_le.mpr hlen)
      | some mb => simp [Function.comp]
    · exact foldl_sign_signs now l (signMember r i now) j hj₂
        (by rw [signMember_length]; exact hlen)

theorem allSigned_signAll (roster : List BACMember) (now : String) :
    allSigned (signAll roster now) = true := by
  rw [allSigned, List.all_eq_true]
  intro m hm
  obtain ⟨j, hj⟩ := List.mem_iff_getElem?.mp hm
  have hlen : j < roster.length := by
    by_contra hle
    rw [signAll] at hj
    rw [List.getElem?_eq_none_iff.mpr
      (by rw [foldl_sign_length]; exact not_lt.mp hle)] at hj
    exact Option.noConfusion hj
  have h₃ := foldl_sign_signs now (List.range roster.length) roster j
    (List.mem_range.mpr hlen) hlen
  rw [signAll] at hj
  rw [hj] at h₃
  simpa using h₃

/-! # Claim theorems -/

/-- C1: Stage progression.  When the current stage's completion predicate
(canAdvance, the negation of the stage's disabled-button condition) holds,
the advance interaction marks the current stage completed and moves to the
stage whose index is exactly one more (capped at the terminal stage
aaa_preparation, index 4, which has no successor) — never skipping a stage
and never moving backward; when the predicate fails, the interaction leaves
the state unchanged.  So advancing out of stage i succeeds iff stage i's
completion predicate holds. -/
theorem c1_stage_progression (s : ModuleState) :
    (canAdvance s = true →
      s.stage ∈ (advance s).completed ∧
      stageIdx (advance s).stage = min (stageIdx s.stage + 1) 4) ∧
    (canAdvance s = false → advance s = s) := by
  constructor
  · intro h
    cases hst : s.stage <;>
      simp [advance, h, hst, completeStage, stageIdx, STAGE_ORDER]
  · intro h
    simp [advance, h]

/-- C1 witness: at a concrete state in stage pr_received with an assigned
canvass number the advance moves to index 1 and records pr_received as
completed; with a blank canvass number the advance is a no-op. -/
theorem c1_witness :
    (stateA.stage ∈ (advance stateA).completed ∧
      stageIdx (advance stateA).stage = min (stageIdx stateA.stage + 1) 4) ∧
    advance stateB = stateB :=
  ⟨(c1_stage_progression stateA).1 (by decide),
   (c1_stage_progression stateB).2 (by decide)⟩

/-- C2 counterexample: in stage collect_canvass with one division still
pending and one well-formed supplier quote, the advance is enabled, so the
claimed gate "every Division Assignment has status = returned AND a usable
quote exists" is not what the code checks — division status is not part of
the gate. -/
theorem c2_counterexample :
    canAdvance stateC2 = true ∧
    stateC2.stage = CanvassStage.collect_canvass ∧
    stateC2.divisions.all (fun d => d.status == DivStatus.returned) = false := by
  decide

/-- C2 (amended): advancing out of collect_canvass is permitted iff at least
one Supplier Quote has a non-empty supplier name and a unitPrices record with
at least one entry; the divisions' return status is not consulted. -/
theorem c2_collect_gate (s : ModuleState) (h : s.stage = CanvassStage.collect_canvass) :
    canAdvance s =
      s.suppliers.any (fun sp => sp.supplierName != "" && !sp.unitPrices.isEmpty) := by
  simp [canAdvance, h, hasQuotes]

/-- C2 witness: the amended gate evaluated at the concrete collect_canvass
state. -/
theorem c2_witness :
    canAdvance stateC2 =
      stateC2.suppliers.any (fun sp => sp.supplierName != "" && !sp.unitPrices.isEmpty) :=
  c2_collect_gate stateC2 rfl

/-- C3: Per-item lowest price selection.  A winning quote has the parsed
price it was scored with, that price is positive, it is a minimum among the
positive parsed prices, and every supplier listed before the winner either
made no positive bid or bid strictly more — ties go to the first-encountered
supplier.  In particular, for items [(id 1, qty 2)] and quotes A at "10" and
B at "5" for item 1, supplier B wins item 1 at price 5. -/
theorem c3_lowest_per_item (suppliers : List SupplierQuote) (itemId : Nat)
    (b : SupplierQuote × ℚ) (h : lowestForItem suppliers itemId = some b) :
    0 < b.2 ∧ b.2 = priceFor b.1 itemId ∧
    (∀ sp ∈ suppliers, 0 < priceFor sp itemId → b.2 ≤ priceFor sp itemId) ∧
    (∃ pre post, suppliers = pre ++ b.1 :: post ∧
      ∀ sp ∈ pre, priceFor sp itemId ≤ 0 ∨ b.2 < priceFor sp itemId) ∧
    lowestForItem [quoteA, quoteB] 1 = some (quoteB, 5) := by
  rw [lowestForItem_eq] at h
  obtain ⟨hkey, hpos, hmin, hfirst⟩ := pickRecK_some_spec _ suppliers b h
  exact ⟨hpos, hkey, hmin, hfirst, by decide⟩

/-- C3 witness: the selection facts instantiated at the spec's example. -/
theorem c3_witness :
    0 < (5 : ℚ) ∧ (5 : ℚ) = priceFor quoteB 1 ∧
    (∀ sp ∈ [quoteA, quoteB], 0 < priceFor sp 1 → (5 : ℚ) ≤ priceFor sp 1) ∧
    (∃ pre post, [quoteA, quoteB] = pre ++ quoteB :: post ∧
      ∀ sp ∈ pre, priceFor sp 1 ≤ 0 ∨ (5 : ℚ) < priceFor sp 1) ∧
    lowestForItem [quoteA, quoteB] 1 = some (quoteB, 5) :=
  c3_lowest_per_item [quoteA, quoteB] 1 (quoteB, 5) (by decide)

/-- C4: Overall recommended awardee.  The reduce over supplierTotals yields
none exactly when no supplier has a positive grand total, and otherwise a
supplier whose total is positive and least among the positive totals. -/
theorem c4_recommended_awardee (items : List CanvassingPRItem)
    (suppliers : List SupplierQuote) :
    (lowestSupplier items suppliers = none ↔
      ∀ sp ∈ suppliers, supplierTotal items sp ≤ 0) ∧
    ∀ b, lowestSupplier items suppliers = some b →
      b.2 = supplierTotal items b.1 ∧ 0 < b.2 ∧ b.1 ∈ suppliers ∧
      ∀ sp ∈ suppliers, 0 < supplierTotal items sp → b.2 ≤ supplierTotal items sp := by
  constructor
  · rw [lowestSupplier_eq]
    exact pickRecK_eq_none_iff _ suppliers
  · intro b hb
    rw [lowestSupplier_eq] at hb
    obtain ⟨hkey, hpos, hmin, pre, post, hsplit, -⟩ := pickRecK_some_spec _ suppliers b hb
    exact ⟨hkey, hpos, by rw [hsplit]; simp, hmin⟩

/-- C4 witness: supplier B is recommended at total 10 for the example
session, and with only an unparseable quote no awardee is recommended. -/
theorem c4_witness :
    ((10 : ℚ) = supplierTotal [itemEx] quoteB ∧ 0 < (10 : ℚ) ∧
      quoteB ∈ [quoteA, quoteB] ∧
      ∀ sp ∈ [quoteA, quoteB], 0 < supplierTotal [itemEx] sp →
        (10 : ℚ) ≤ supplierTotal [itemEx] sp) ∧
    (lowestSupplier [itemEx] [quoteAbc] = none ↔
      ∀ sp ∈ [quoteAbc], supplierTotal [itemEx] sp ≤ 0) :=
  ⟨(c4_recommended_awardee [itemEx] [quoteA, quoteB]).2 (quoteB, 10) (by decide),
   (c4_recommended_awardee [itemEx] [quoteAbc]).1⟩

/-- C5: Per-supplier grand total.  The fold computing a supplier's total
equals the sum over all line items of the parsed price times the quantity;
an empty, zero or unparseable price string parses to 0 (so it contributes
exactly 0), a missing entry likewise; and a winner of an item always has a
positive parsed price, so such an entry never wins the item. -/
theorem c5_supplier_grand_total (items : List CanvassingPRItem) (sp : SupplierQuote)
    (suppliers : List SupplierQuote) (itemId : Nat) :
    supplierTotal items sp = (items.map (fun it => priceFor sp it.id * it.qty)).sum ∧
    jsPriceNum ("") = 0 ∧ jsPriceNum ("0") = 0 ∧ jsPriceNum ("abc") = 0 ∧
    (lookupPrice sp.unitPrices itemId = none → priceFor sp itemId = 0) ∧
    (∀ b, lowestForItem suppliers itemId = some b →
      b.2 = priceFor b.1 itemId ∧ 0 < priceFor b.1 itemId) := by
  refine ⟨?_, by decide, by decide, by decide, ?_, ?_⟩
  · rw [supplierTotal, foldl_add_eq]
    simp
  · intro hnone
    rw [priceFor, hnone]
    decide
  · intro b hb
    rw [lowestForItem_eq] at hb
    obtain ⟨hkey, hpos, -, -⟩ := pickRecK_some_spec _ suppliers b hb
    exact ⟨hkey, hkey ▸ hpos⟩

/-- C5 witness: the quote with price string "abc" has parsed price 0 for a
missing item id, supplier B's winning price for item 1 is positive, and the
total of the "abc" supplier matches the sum form. -/
theorem c5_witness :
    priceFor quoteAbc 2 = 0 ∧
    ((5 : ℚ) = priceFor quoteB 1 ∧ 0 < priceFor quoteB 1) ∧
    supplierTotal [itemEx] quoteAbc =
      ([itemEx].map (fun it => priceFor quoteAbc it.id * it.qty)).sum :=
  ⟨(c5_supplier_grand_total [itemEx] quoteAbc [quoteA, quoteB] 2).2.2.2.2.1 (by decide),
   (c5_supplier_grand_total [itemEx] quoteAbc [quoteA, quoteB] 1).2.2.2.2.2
     (quoteB, 5) (by decide),
   (c5_supplier_grand_total [itemEx] quoteAbc [quoteA, quoteB] 2).1⟩

/-- C6: Signature Roster.  sign(index) keeps the roster's length, overwrites
the entry at the index with signed = true and the given timestamp, leaves
every other entry untouched, and signing an already-signed entry merely
overwrites the timestamp (signing twice equals signing once with the later
time); the completion predicate allSigned holds iff every entry is signed —
in particular it holds after signing all n entries and fails while any entry
is unsigned. -/
theorem c6_signature_roster (roster : List BACMember) (idx : Nat) (now t : String)
    (h : idx < roster.length) :
    (signMember roster idx now).length = roster.length ∧
    (∃ mb, roster[idx]? = some mb ∧
      (signMember roster idx now)[idx]? =
        some { mb with signed := true, signedAt := now }) ∧
    (∀ j, j ≠ idx → (signMember roster idx now)[j]? = roster[j]?) ∧
    signMember (signMember roster idx t) idx now = signMember roster idx now ∧
    (allSigned roster = true ↔ ∀ m ∈ roster, m.signed = true) ∧
    allSigned (signAll roster now) = true ∧
    (∀ m ∈ roster, m.signed = false → allSigned roster = false) := by
  refine ⟨signMember_length roster idx now, ?_, ?_,
    signMember_overwrite roster idx t now, ?_, allSigned_signAll roster now, ?_⟩
  · cases o : roster[idx]? with
    | none => exact absurd (List.getElem?_eq_none_iff.mp o) (not_le.mpr h)
    | some mb =>
      refine ⟨mb, rfl, ?_⟩
      rw [signMember_getElem?, o]
      simp
  · intro j hj
    rw [signMember_getElem?]
    cases roster[j]? <;> simp [hj]
  · rw [allSigned]
    exact List.all_eq_true
  · intro m hm hf
    by_contra hne
    have hall : roster.all (fun m => m.signed) = true := by
      cases hb : allSigned roster with
      | true => rw [allSigned] at hb; exact hb
      | false => exact absurd hb hne
    have hmt := List.all_eq_true.mp hall m hm
    simp [hf] at hmt

/-- C6 witness: on the concrete two-member roster, signing preserves the
length, signing every entry makes allSigned true, and the initial
all-unsigned roster is not complete. -/
theorem c6_witness :
    (signMember rosterEx 0 ("10:00")).length = rosterEx.length ∧
    allSigned (signAll rosterEx ("10:00")) = true ∧
    allSigned rosterEx = false :=
  ⟨(c6_signature_roster rosterEx 0 ("10:00") ("09:00") (by decide)).1,
   (c6_signature_roster rosterEx 0 ("10:00") ("09:00") (by decide)).2.2.2.2.2.1,
   (c6_signature_roster rosterEx 0 ("10:00") ("09:00") (by decide)).2.2.2.2.2.2
     { name := "Yvonne M.", designation := "BAC Chairperson", signed := false, signedAt := "" }
     (by decide) rfl⟩

/-- C7: Round-trip on completion.  The session ref is created holding the
PR reference; the payload built by handleFinalComplete from the Step 10
forward action carries that same PR reference, and its awarded_total is the
winning supplier's grand total — positive and least among the positive grand
totals computed by the Award Calculator over the session's supplier quotes. -/
theorem c7_round_trip (pr : CanvassingPR) (suppliers : List SupplierQuote)
    (bacMembers : List BACMember) (b : SupplierQuote × ℚ)
    (h : lowestSupplier pr.items suppliers = some b) :
    (initSessionRef pr).pr_no = some pr.prNo ∧
    (handleFinalComplete pr (initSessionRef pr) suppliers bacMembers
        (b.1.supplierName, b.2)).pr_no = pr.prNo ∧
    (handleFinalComplete pr (initSessionRef pr) suppliers bacMembers
        (b.1.supplierName, b.2)).awarded_total = b.2 ∧
    0 < b.2 ∧ b.2 = supplierTotal pr.items b.1 ∧
    ∀ sp ∈ suppliers, 0 < supplierTotal pr.items sp →
      b.2 ≤ supplierTotal pr.items sp := by
  rw [lowestSupplier_eq] at h
  obtain ⟨hkey, hpos, hmin, -⟩ := pickRecK_some_spec _ suppliers b h
  exact ⟨rfl, rfl, rfl, hpos, hkey, hmin⟩

/-- C7 witness: the concrete completed session on PR 2026-PR-0042 emits that
same PR reference and awarded total 10, the minimum positive grand total. -/
theorem c7_witness :
    (initSessionRef prEx).pr_no = some prEx.prNo ∧
    (handleFinalComplete prEx (initSessionRef prEx) [quoteA, quoteB] bacSignedEx
        (quoteB.supplierName, 10)).pr_no = prEx.prNo ∧
    (handleFinalComplete prEx (initSessionRef prEx) [quoteA, quoteB] bacSignedEx
        (quoteB.supplierName, 10)).awarded_total = 10 ∧
    0 < (10 : ℚ) ∧ (10 : ℚ) = supplierTotal prEx.items quoteB ∧
    (∀ sp ∈ [quoteA, quoteB], 0 < supplierTotal prEx.items sp →
      (10 : ℚ) ≤ supplierTotal prEx.items sp) :=
  c7_round_trip prEx [quoteA, quoteB] bacSignedEx (quoteB, 10) (by decide)

/-- C8: the session ref is created holding only pr_no and no statement in
the module ever assigns its bac_no, resolution_no, mode_of_procurement or
aaa_no fields (the stage-assigned references live in step-local state and
are dropped), so every payload handleFinalComplete emits carries the empty
string for all four fields — contradicting the claim that the payload
carries the assigned references. -/
theorem c8_session_refs_empty (pr : CanvassingPR) (suppliers : List SupplierQuote)
    (bacMembers : List BACMember) (awarded : String × ℚ) :
    (handleFinalComplete pr (initSessionRef pr) suppliers bacMembers awarded).bac_no = "" ∧
    (handleFinalComplete pr (initSessionRef pr) suppliers bacMembers awarded).resolution_no = "" ∧
    (handleFinalComplete pr (initSessionRef pr) suppliers bacMembers
        awarded).mode_of_procurement = "" ∧
    (handleFinalComplete pr (initSessionRef pr) suppliers bacMembers awarded).aaa_no = "" :=
  ⟨rfl, rfl, rfl, rfl⟩

/-- C9: High-value flag.  isHighValue holds iff the form total (sum over the
line items of parsed quantity times parsed price) reaches the fixed threshold
HIGH_VALUE_THRESHOLD = 10000; a total of 6700 is not high-value and a total
of 15000 is. -/
theorem c9_high_value (items : List LineItem) :
    (isHighValue items = true ↔ HIGH_VALUE_THRESHOLD ≤ formTotal items) ∧
    HIGH_VALUE_THRESHOLD = 10000 ∧
    formTotal lineEx6700List = 6700 ∧ isHighValue lineEx6700List = false ∧
    formTotal lineEx15000List = 15000 ∧ isHighValue lineEx15000List = true := by
  refine ⟨?_, by decide, by decide, by decide, by decide, by decide⟩
  rw [isHighValue]
  exact decide_eq_true_iff

/-- C9 witness: the flag evaluated at the two concrete totals. -/
theorem c9_witness :
    isHighValue lineEx15000List = true ∧
    (isHighValue lineEx6700List = true ↔
      HIGH_VALUE_THRESHOLD ≤ formTotal lineEx6700List) :=
  ⟨(c9_high_value []).2.2.2.2.2, (c9_high_value lineEx6700List).1⟩

/-- C10: entering aaa_preparation rebuilds the abstract roster from the BAC
roster: names and designations are copied, every signed flag is reset to
false and every timestamp cleared — regardless of the BAC roster's signed
state — so a nonempty roster is not complete on entry, and since the
aaa_preparation gate requires the abstract roster to be fully signed, the
stage cannot be completed until every member signs again. -/
theorem c10_aaa_roster_reset (bacMembers : List BACMember) (s : ModuleState) :
    (initAAAMembers bacMembers).map (fun m => (m.name, m.designation)) =
      bacMembers.map (fun m => (m.name, m.designation)) ∧
    (∀ m ∈ initAAAMembers bacMembers, m.signed = false ∧ m.signedAt = "") ∧
    (bacMembers ≠ [] → allSigned (initAAAMembers bacMembers) = false) ∧
    (s.stage = CanvassStage.collect_canvass → canAdvance s = true →
      (advance s).stage = CanvassStage.aaa_preparation ∧
      (advance s).aaaMembers = initAAAMembers s.bacMembers ∧
      (s.bacMembers ≠ [] → canAdvance (advance s) = false)) := by
  have hreset : ∀ (l : List BACMember), l ≠ [] → allSigned (initAAAMembers l) = false := by
    intro l hl
    cases l with
    | nil => exact absurd rfl hl
    | cons a tl => simp [initAAAMembers, allSigned]
  refine ⟨?_, ?_, hreset bacMembers, ?_⟩
  · rw [initAAAMembers, List.map_map]
    rfl
  · intro m hm
    rw [initAAAMembers] at hm
    obtain ⟨x, hx, rfl⟩ := List.mem_map.mp hm
    exact ⟨rfl, rfl⟩
  · intro hst hcan
    have hq : hasQuotes s.suppliers = true := by
      rw [canAdvance, hst] at hcan
      exact hcan
    refine ⟨?_, ?_, ?_⟩
    · simp [advance, hcan, hst, completeStage, stageIdx, STAGE_ORDER]
    · simp [advance, hcan, hst]
    · intro hne
      simp [advance, hcan, hst, hq, completeStage, stageIdx, STAGE_ORDER,
        canAdvance, hreset s.bacMembers hne]

/-- C10 witness: at the concrete collect_canvass state whose BAC roster is
fully signed, advancing enters aaa_preparation with an all-unsigned abstract
roster, and the terminal stage's gate is closed until the members re-sign. -/
theorem c10_witness :
    (advance stateC2).stage = CanvassStage.aaa_preparation ∧
    (advance stateC2).aaaMembers = initAAAMembers stateC2.bacMembers ∧
    canAdvance (advance stateC2) = false :=
  ⟨((c10_aaa_roster_reset bacSignedEx stateC2).2.2.2 rfl (by decide)).1,
   ((c10_aaa_roster_reset bacSignedEx stateC2).2.2.2 rfl (by decide)).2.1,
   ((c10_aaa_roster_reset bacSignedEx stateC2).2.2.2 rfl (by decide)).2.2 (by decide)⟩

end Canvassing
